import Mathlib

/-!
Verification of the campus activity portal client (frontend JS) and its
spec-described Registration Ledger.

Each definition is a shallow embedding of a function from the repository
source (file and function named in its doc comment).  JavaScript strings
become Lean `String`, JS `undefined`/`null` become `Option`, JS truthiness
of strings and numbers is modelled explicitly where the source relies on it.
-/

namespace Campus

/-! ## JavaScript string primitives used by the client helpers -/

/-- Embedding of JS `String.prototype.toLowerCase` (per-character lowering,
as used on the ASCII message strings of this client). -/
def jsToLower (s : String) : String := String.mk (s.data.map Char.toLower)

/-- Embedding of JS `String.prototype.trim`: drop whitespace from both ends. -/
def jsTrim (s : String) : String :=
  String.mk (((s.data.dropWhile Char.isWhitespace).reverse.dropWhile Char.isWhitespace).reverse)

/-- Helper for `includesList`: does `needle` occur at the head of `hay`? -/
def startsWithList : List Char → List Char → Bool
  | [], _ => true
  | _ :: _, [] => false
  | c :: cs, h :: hs => c == h && startsWithList cs hs

/-- Does `needle` occur contiguously anywhere inside `hay`? -/
def includesList (hay needle : List Char) : Bool :=
  match hay with
  | [] => needle.isEmpty
  | _ :: t => startsWithList needle hay || includesList t needle

/-- Embedding of JS `String.prototype.includes`. -/
def jsIncludes (hay needle : String) : Bool := includesList hay.data needle.data

/-- JS truthiness of an optional string (`undefined` and `""` are falsy). -/
def jsTruthyStr : Option String → Bool
  | none => false
  | some s => !(s = "")

/-- First truthy operand of a JS `a || b || c` chain over optional strings
(`none` models `undefined`). -/
def firstTruthyStr : List (Option String) → Option String
  | [] => none
  | x :: t => if jsTruthyStr x then x else firstTruthyStr t

/-! ## Shared client helpers (src/unnamed/part_000) -/

/-- An HTTP response body as consumed by `normalizeDetail` and
`buildErrorMessage`: the three optional string fields the client reads. -/
structure RespBody where
  detail : Option String
  error : Option String
  message : Option String

/-- Embedding of `normalizeDetail` (src/unnamed/part_000 lines 11-14):
takes the first truthy of `body?.detail || body?.error || body?.message`
and lowercases it when it is a string, else returns `""`.  (When the whole
chain is falsy the JS result is either `undefined` or `""`; both normalize
to `""`.) -/
def normalizeDetail (body : Option RespBody) : String :=
  match body with
  | none => ""
  | some b =>
    match firstTruthyStr [b.detail, b.error, b.message] with
    | some s => jsToLower s
    | none => ""

/-- A `{ message, type }` pair returned by the client message builders. -/
structure StatusMessage where
  message : String
  type : String
deriving DecidableEq, Repr

/-- Embedding of `buildRegistrationMessage` (src/frontend/public/js/events.js
lines 54-66).  `resOk` is `res.ok`. -/
def buildRegistrationMessage (resOk : Bool) (body : Option RespBody) : StatusMessage :=
  let detail := normalizeDetail body
  if resOk then
    ⟨"Registration successful.", "success"⟩
  else if jsIncludes detail "already" && jsIncludes detail "registered" then
    ⟨"You’re already registered for this event.", "info"⟩
  else if jsIncludes detail "full" then
    ⟨"This event is full.", "error"⟩
  else
    ⟨"Unable to register for this event right now.", "error"⟩

/-- Embedding of `buildJoinClubMessage` (src/frontend/public/js/clubs.js
lines 1-13). -/
def buildJoinClubMessage (resOk : Bool) (body : Option RespBody) : StatusMessage :=
  let detail := normalizeDetail body
  if resOk then
    ⟨"You joined this club.", "success"⟩
  else if jsIncludes detail "already" && jsIncludes detail "member" then
    ⟨"You’re already a member of this club.", "info"⟩
  else if jsIncludes detail "pending" then
    ⟨"Your join request is pending approval.", "info"⟩
  else
    ⟨"We couldn’t process your join request right now.", "error"⟩

/-! ## Club directory filtering (src/frontend/public/js/clubs.js) -/

/-- A club record as consumed by `filterClubList` / `renderClubs`. -/
structure ClubInfo where
  id : Nat
  name : String
  description : String
deriving DecidableEq, Repr

/-- The per-club predicate of the `filter` callback in `filterClubList`
(src/frontend/public/js/clubs.js lines 203-206); `search` is already
trimmed and lowercased. -/
def clubMatchesSearch (search : String) (club : ClubInfo) : Bool :=
  jsIncludes (jsToLower club.name) search || jsIncludes (jsToLower club.description) search

/-- Embedding of `filterClubList` (src/frontend/public/js/clubs.js lines
199-208), restricted to the list it passes to `renderClubs`.  The search
input is trimmed and lowercased; a falsy (empty) search keeps `allClubs`. -/
def filterClubList (allClubs : List ClubInfo) (searchInput : String) : List ClubInfo :=
  let search := jsToLower (jsTrim searchInput)
  if search = "" then allClubs
  else allClubs.filter (clubMatchesSearch search)

/-! ## Role and capability gates (events.js, clubs.js, src/unnamed/part_002) -/

/-- The signed-in user profile kept by `state.js` (`currentUser()`): the body
returned by the login endpoint, with the fields the client reads. -/
structure AuthUser where
  id : Nat
  email : String
  role : String
  is_approved : Bool
deriving DecidableEq, Repr

/-- Embedding of `clubRoles.get(...)` : lookup of a club id in the
`clubRoles` map of state.js (first binding wins, `none` = `undefined`). -/
def mapGet (m : List (Nat × String)) (k : Nat) : Option String :=
  (m.find? (fun p => p.1 == k)).map (fun p => p.2)

/-- Embedding of `canManageEvent` (src/frontend/public/js/events.js lines
159-165).  `personaRole` is `currentPersona().role`, `clubRoles` the shared
membership-role map, `eventClubId` the `club_id` of the event (`none` models
`null`/`undefined`; `0` is also falsy in the JS `!event.club_id` test). -/
def canManageEvent (personaRole : String) (clubRoles : List (Nat × String))
    (eventClubId : Option Nat) : Bool :=
  if personaRole = "admin" then true
  else
    match eventClubId with
    | none => false
    | some cid =>
      if cid = 0 then false
      else personaRole == "leader" && mapGet clubRoles cid == some "leader"

/-- A member row of the club-detail response (`data.members`). -/
structure ClubMember where
  user_email : String
  role : String
  status : String
deriving DecidableEq, Repr

/-- Embedding of the `isClubLeader` expression in `loadClubDetail`
(src/frontend/public/js/clubs.js line 244): some member row matches the
email of the signed-in user with role "leader" and status "approved". -/
def isClubLeader (members : List ClubMember) (user : Option AuthUser) : Bool :=
  members.any (fun m =>
    (match user with
     | some u => m.user_email == u.email
     | none => false)
    && m.role == "leader" && m.status == "approved")

/-- Embedding of the `canManageClubEvents` expression in `loadClubDetail`
(src/frontend/public/js/clubs.js line 245):
`user?.role === "admin" || (user?.role === "leader" && user?.is_approved && isClubLeader)`. -/
def canManageClubEvents (user : Option AuthUser) (members : List ClubMember) : Bool :=
  (match user with | some u => u.role == "admin" | none => false)
  || ((match user with | some u => u.role == "leader" | none => false)
      && (match user with | some u => u.is_approved | none => false)
      && isClubLeader members user)

/-- Embedding of the `shouldShowLeaderTools` expression in `loadClubDetail`
(src/frontend/public/js/clubs.js line 303), the gate on the leader dashboard. -/
def shouldShowLeaderTools (user : Option AuthUser) (members : List ClubMember) : Bool :=
  (match user with | some u => u.role == "admin" | none => false)
  || ((match user with | some u => u.role == "leader" | none => false)
      && (match user with | some u => u.is_approved | none => false)
      && isClubLeader members user)

/-- Embedding of the `.leader-only` visibility computed by
`updateRoleVisibility` (src/unnamed/part_002 lines 119-136): an element is
visible iff NOT (`role !== "leader" && role !== "admin"`). -/
def leaderOnlyVisible (personaRole : String) : Bool :=
  !(personaRole != "leader" && personaRole != "admin")

/-! ## Request headers (src/unnamed/part_000) -/

/-- Embedding of `buildHeaders` (src/unnamed/part_000 lines 21-28) as the
association list of headers in insertion order.  `user` is `currentUser()`;
a header is added only when the corresponding field is truthy (nonzero id,
nonempty email). -/
def buildHeaders (user : Option AuthUser) (json : Bool) : List (String × String) :=
  (match user with
   | some u =>
     (if u.id ≠ 0 then [("X-User-Id", toString u.id)] else [])
       ++ (if u.email ≠ "" then [("X-User-Email", u.email)] else [])
   | none => [])
  ++ (if json then [("Content-Type", "application/json")] else [])

/-! ## Admin-only client operations (src/frontend/public/js/admin.js) -/

/-- Outcome of the guard segment of an admin.js operation: whether the HTTP request
was issued and which error status text (if any) was set before returning. -/
structure GuardedCall where
  requestSent : Bool
  errorStatus : Option String
deriving DecidableEq, Repr

/-- Embedding of the guard and request of `loadFlags`
(src/frontend/public/js/admin.js lines 1-14): a non-admin persona sets the
error status and returns before `apiGetFlags()` is reached. -/
def loadFlags (personaRole : String) : GuardedCall :=
  if personaRole ≠ "admin" then ⟨false, some "Admin role required."⟩
  else ⟨true, none⟩

/-- Embedding of the guard and request of `resolveFlag`
(src/frontend/public/js/admin.js lines 48-61). -/
def resolveFlag (personaRole : String) (_id : Int) : GuardedCall :=
  if personaRole ≠ "admin" then ⟨false, some "Admin role required."⟩
  else ⟨true, none⟩

/-- Embedding of the guard and request of `loadPendingClubs`
(src/frontend/public/js/admin.js lines 63-67 and the `apiGetPendingClubs`
call). -/
def loadPendingClubs (personaRole : String) : GuardedCall :=
  if personaRole ≠ "admin" then ⟨false, some "Admin role required."⟩
  else ⟨true, none⟩

/-- Embedding of the guard and request of `approveClub`
(src/frontend/public/js/admin.js lines 108-127).  `idOverride` is `some n`
when the argument is a JS number, else `none`; a missing or zero id (falsy)
sets the choose-a-club status and returns before `apiApproveClub`. -/
def approveClub (personaRole : String) (idOverride : Option Int) : GuardedCall :=
  if personaRole ≠ "admin" then ⟨false, some "Admin role required."⟩
  else
    match idOverride with
    | none => ⟨false, some "Choose a club to approve."⟩
    | some id =>
      if id = 0 then ⟨false, some "Choose a club to approve."⟩
      else ⟨true, none⟩

/-! ## My-events rendering (src/frontend/public/js/events.js) -/

/-- An event of the `myEvents` array; `starts_at` is the numeric value of
`new Date(ev.starts_at)` (epoch milliseconds of the parsed ISO string). -/
structure MyEvent where
  id : Nat
  title : String
  starts_at : Int
  location : String
  category : String
deriving DecidableEq, Repr

/-- Embedding of `renderMyEvents` (src/frontend/public/js/events.js lines
100-118): the first component is the row order displayed, obtained from
`myEvents.slice().sort((a,b) => new Date(a.starts_at) - new Date(b.starts_at))`
(a stable ascending sort of a copy, embedded as a stable merge sort); the
second component is the stored `myEvents` array after the call. -/
def renderMyEvents (myEvents : List MyEvent) : List MyEvent × List MyEvent :=
  (myEvents.mergeSort (fun a b => a.starts_at ≤ b.starts_at), myEvents)

/-! ## Date construction (src/frontend/public/js/events.js buildIsoString) -/

/-- Digits-to-number accumulator for the integral fragment of JS `Number`. -/
def parseDigits (l : List Char) : Option Nat :=
  l.foldl
    (fun acc c =>
      match acc with
      | none => none
      | some n => if c.isDigit then some (n * 10 + (c.toNat - 48)) else none)
    (some 0)

/-- Embedding of JS `Number(string)` on the integral fragment this form uses
(optionally signed decimal digit strings; whitespace trimmed; empty string is
`0`; anything else is `NaN`, modelled as `none`). -/
def jsNumber (s : String) : Option Int :=
  let t := jsTrim s
  if t = "" then some 0
  else
    match t.data with
    | '-' :: rest =>
      if rest = [] then none
      else (parseDigits rest).map (fun n => -(n : Int))
    | l => (parseDigits l).map (fun n => (n : Int))

/-- Embedding of JS `String.prototype.split` with a single-character
separator. -/
def splitOnChar (l : List Char) (sep : Char) : List (List Char) :=
  match l with
  | [] => [[]]
  | c :: rest =>
    let r := splitOnChar rest sep
    if c = sep then [] :: r
    else
      match r with
      | [] => [[c]]
      | h :: t => (c :: h) :: t

/-- The arguments the source passes to `Date.UTC(year, month-1, day, hour24,
minute, 0, 0)`; the claim under check concerns `hour24`, which `Date.UTC`
never renormalizes since the guards keep it in 0..23 and minute in 0..59. -/
structure UtcParts where
  year : Int
  monthIndex : Int
  day : Int
  hour24 : Int
  minute : Int
deriving DecidableEq, Repr

/-- Result of `buildIsoString`: `nullResult` models `return null`; `iso`
carries the `Date.UTC` arguments behind the returned ISO string; `thrown`
models the `RangeError` that `toISOString` raises when a date string with
fewer than three components sends `undefined` into `Date.UTC` (the
`Number.isNaN` check does not catch `undefined`). -/
inductive IsoResult where
  | nullResult
  | iso (parts : UtcParts)
  | thrown
deriving DecidableEq, Repr

/-- Embedding of `buildIsoString` (src/frontend/public/js/events.js lines
1-20).  Hour and minute strings go through `Number` (`jsNumber`); the date
string is split on "-" and its first three components go through `Number`. -/
def buildIsoString (dateStr hourStr minuteStr ampm : String) : IsoResult :=
  if dateStr = "" then .nullResult
  else if ampm ≠ "AM" ∧ ampm ≠ "PM" then .nullResult
  else
    match jsNumber hourStr, jsNumber minuteStr with
    | some hour, some minute =>
      if hour < 1 ∨ hour > 12 ∨ minute < 0 ∨ minute > 59 then .nullResult
      else
        let parts := (splitOnChar dateStr.data '-').map (fun cs => jsNumber (String.mk cs))
        let year := parts[0]?
        let month := parts[1]?
        let day := parts[2]?
        if year = some none ∨ month = some none ∨ day = some none then .nullResult
        else
          let hour24base := hour % 12
          let hour24 :=
            if ampm = "PM" ∧ hour ≠ 12 then hour24base + 12
            else if ampm = "AM" ∧ hour = 12 then 0
            else hour24base
          match year, month, day with
          | some (some y), some (some m), some (some d) =>
            .iso ⟨y, m - 1, d, hour24, minute⟩
          | _, _, _ => .thrown
    | _, _ => .nullResult

/-! ## Registration Ledger

Modelled from the spec: the FastAPI backend that owns events and
registrations is not under src/ (only this client is), so `register`,
`unregister` and the capacity invariant are modelled from the
Registration Ledger contract of the spec (spec.md section 4.1): `register` fails
NotFound when the event is missing, Conflict(AlreadyRegistered) when the
(user, event) pair exists, Conflict(CapacityExceeded) when capacity is set
and the current count has reached it, and otherwise inserts atomically; the
whole check-and-insert is one atomic unit, so any interleaving of concurrent
calls is some sequential order of these atomic steps. -/

/-- An event row as the Registration Ledger sees it (capacity `none` =
unlimited).  Modelled from the spec. -/
structure LedgerEvent where
  id : Nat
  capacity : Option Nat
deriving DecidableEq, Repr

/-- The ledger store: event rows and (user, event) registration rows.
Modelled from the spec. -/
structure Ledger where
  events : List LedgerEvent
  regs : List (String × Nat)
deriving DecidableEq, Repr

/-- Typed outcome of `register`. Modelled from the spec. -/
inductive RegOutcome where
  | ok
  | notFound
  | alreadyRegistered
  | capacityExceeded
deriving DecidableEq, Repr

/-- Event lookup by id. Modelled from the spec. -/
def findEvent (st : Ledger) (eid : Nat) : Option LedgerEvent :=
  st.events.find? (fun ev => ev.id == eid)

/-- Number of persisted registrations for an event. Modelled from the spec. -/
def regCount (st : Ledger) (eid : Nat) : Nat :=
  (st.regs.filter (fun r => r.2 == eid)).length

/-- Modelled from the spec: `register(eventId, principal)` of the
Registration Ledger, one atomic check-and-insert. -/
def register (st : Ledger) (user : String) (eid : Nat) : Ledger × RegOutcome :=
  match findEvent st eid with
  | none => (st, .notFound)
  | some ev =>
    if (user, eid) ∈ st.regs then (st, .alreadyRegistered)
    else
      match ev.capacity with
      | some cap =>
        if cap ≤ regCount st eid then (st, .capacityExceeded)
        else ({ st with regs := (user, eid) :: st.regs }, .ok)
      | none => ({ st with regs := (user, eid) :: st.regs }, .ok)

/-- Modelled from the spec: `unregister(eventId, principal)` deletes the
registration when present. -/
def unregister (st : Ledger) (user : String) (eid : Nat) : Ledger × RegOutcome :=
  if (user, eid) ∈ st.regs then
    ({ st with regs := st.regs.erase (user, eid) }, .ok)
  else (st, .notFound)

/-- The capacity invariant: no event with a set capacity has more persisted
registrations than its capacity. -/
def capInv (st : Ledger) : Prop :=
  ∀ ev ∈ st.events, ∀ cap, ev.capacity = some cap → regCount st ev.id ≤ cap

/-- States reachable from an initial ledger (distinct event ids, no
registrations) through atomic `register` / `unregister` steps. -/
inductive Reachable : Ledger → Prop where
  | init (events : List LedgerEvent) (hids : (events.map (fun ev => ev.id)).Nodup) :
      Reachable ⟨events, []⟩
  | registerStep (st : Ledger) (u : String) (e : Nat) :
      Reachable st → Reachable (register st u e).1
  | unregisterStep (st : Ledger) (u : String) (e : Nat) :
      Reachable st → Reachable (unregister st u e).1

/-- Run one `register` call per listed user against one event, collecting
outcomes; since each call is atomic, an arbitrary user order covers every
interleaving of N concurrent calls. -/
def runRegisters (st : Ledger) (users : List String) (eid : Nat) :
    Ledger × List RegOutcome :=
  match users with
  | [] => (st, [])
  | u :: rest =>
    let p := register st u eid
    let q := runRegisters p.1 rest eid
    (q.1, p.2 :: q.2)

/-- Count occurrences of an outcome. -/
def countOutcome (rs : List RegOutcome) (o : RegOutcome) : Nat :=
  (rs.filter (fun r => r == o)).length

/-! ## createClub submission discipline (src/frontend/public/js/clubs.js) -/

/-- How a `createClub` attempt finishes: the response was ok, the response
was an error, or an exception reached the catch block.  All three paths run
the `finally` block. -/
inductive CCOutcome where
  | success
  | httpError
  | thrownError
deriving DecidableEq, Repr

/-- The client state relevant to `createClub`: the `createClubSubmitting`
flag (src/frontend/public/js/clubs.js line 15) and the number of
create-club requests issued but not yet completed. -/
structure CCState where
  createClubSubmitting : Bool
  requestsInFlight : Nat
deriving DecidableEq, Repr

/-- Events of the `createClub` lifecycle: an invocation with the raw name
and description inputs, or the completion of an in-flight attempt. -/
inductive CCEvent where
  | invoke (name description : String)
  | complete (outcome : CCOutcome)

/-- Embedding of `createClub` (src/frontend/public/js/clubs.js lines
121-173) as one atomic step per synchronous segment.  `invoke` runs the
segment from entry to the `apiCreateClub` call: it returns at once when the
flag is set, returns without a request when the trimmed name or description
is empty, and otherwise sets the flag and issues the request (the returned
Bool).  `complete` runs the continuation after the awaited response,
whose `finally` clears the flag on every path. -/
def ccStep (s : CCState) (e : CCEvent) : CCState × Bool :=
  match e with
  | .invoke name description =>
    if s.createClubSubmitting then (s, false)
    else if jsTrim name = "" ∨ jsTrim description = "" then (s, false)
    else ({ createClubSubmitting := true, requestsInFlight := s.requestsInFlight + 1 }, true)
  | .complete _ => ({ createClubSubmitting := false, requestsInFlight := s.requestsInFlight - 1 }, false)

/-- The page-load state: flag clear, nothing in flight. -/
def ccInit : CCState := ⟨false, 0⟩

/-- Run a sequence of `createClub` lifecycle events from the initial state. -/
def ccRun (events : List CCEvent) : CCState :=
  events.foldl (fun s e => (ccStep s e).1) ccInit

end Campus

namespace Campus

/-! ## Theorems -/

/-- C3: `buildRegistrationMessage` classifies by keyword sniffing on the
lowercased detail: success iff `res.ok`; otherwise already-registered iff the
detail contains both "already" and "registered"; otherwise event-full iff it
contains "full"; otherwise the generic error outcome. -/
theorem buildRegistrationMessage_spec (resOk : Bool) (body : Option RespBody) :
    (buildRegistrationMessage resOk body = ⟨"Registration successful.", "success"⟩ ↔ resOk = true)
    ∧ (resOk = false →
        (buildRegistrationMessage resOk body = ⟨"You’re already registered for this event.", "info"⟩
          ↔ (jsIncludes (normalizeDetail body) "already"
              && jsIncludes (normalizeDetail body) "registered") = true))
    ∧ (resOk = false →
        (jsIncludes (normalizeDetail body) "already"
          && jsIncludes (normalizeDetail body) "registered") = false →
        (buildRegistrationMessage resOk body = ⟨"This event is full.", "error"⟩
          ↔ jsIncludes (normalizeDetail body) "full" = true))
    ∧ (resOk = false →
        (jsIncludes (normalizeDetail body) "already"
          && jsIncludes (normalizeDetail body) "registered") = false →
        jsIncludes (normalizeDetail body) "full" = false →
        buildRegistrationMessage resOk body
          = ⟨"Unable to register for this event right now.", "error"⟩) := by
  refine ⟨?_, fun hr => ?_, fun hr hA => ?_, fun hr hA hF => ?_⟩
  · cases resOk
    · simp only [Bool.false_eq_true, iff_false]
      unfold buildRegistrationMessage
      simp only [Bool.false_eq_true, if_false]
      split_ifs <;> decide
    · simp [buildRegistrationMessage]
  · subst hr
    unfold buildRegistrationMessage
    simp only [Bool.false_eq_true, if_false]
    by_cases hA : (jsIncludes (normalizeDetail body) "already"
        && jsIncludes (normalizeDetail body) "registered") = true
    · simp [hA]
    · rw [Bool.not_eq_true] at hA
      simp only [hA, Bool.false_eq_true, if_false, iff_false]
      split_ifs <;> decide
  · unfold buildRegistrationMessage
    simp only [Bool.false_eq_true, if_false, hr, hA]
    by_cases hF : jsIncludes (normalizeDetail body) "full" = true
    · simp [hF]
    · rw [Bool.not_eq_true] at hF
      simp only [hF, Bool.false_eq_true, if_false, iff_false]
      decide
  · unfold buildRegistrationMessage
    simp [hr, hA, hF]

/-- Witness for C3 at a concrete response. -/
theorem buildRegistrationMessage_spec_witness :
    buildRegistrationMessage false (some ⟨some "Event is FULL", none, none⟩)
      = ⟨"This event is full.", "error"⟩ :=
  ((buildRegistrationMessage_spec false
      (some ⟨some "Event is FULL", none, none⟩)).2.2.1 rfl (by decide)).mpr (by decide)

/-- C5: `buildJoinClubMessage` maps an ok response to the joined outcome; a
non-ok response to the idempotent already-a-member outcome iff the lowercased
detail contains both "already" and "member", else to the pending outcome iff
it contains "pending", else to a generic error. -/
theorem buildJoinClubMessage_spec (resOk : Bool) (body : Option RespBody) :
    (buildJoinClubMessage resOk body = ⟨"You joined this club.", "success"⟩ ↔ resOk = true)
    ∧ (resOk = false →
        (buildJoinClubMessage resOk body = ⟨"You’re already a member of this club.", "info"⟩
          ↔ (jsIncludes (normalizeDetail body) "already"
              && jsIncludes (normalizeDetail body) "member") = true))
    ∧ (resOk = false →
        (jsIncludes (normalizeDetail body) "already"
          && jsIncludes (normalizeDetail body) "member") = false →
        (buildJoinClubMessage resOk body = ⟨"Your join request is pending approval.", "info"⟩
          ↔ jsIncludes (normalizeDetail body) "pending" = true))
    ∧ (resOk = false →
        (jsIncludes (normalizeDetail body) "already"
          && jsIncludes (normalizeDetail body) "member") = false →
        jsIncludes (normalizeDetail body) "pending" = false →
        buildJoinClubMessage resOk body
          = ⟨"We couldn’t process your join request right now.", "error"⟩) := by
  refine ⟨?_, fun hr => ?_, fun hr hA => ?_, fun hr hA hP => ?_⟩
  · cases resOk
    · simp only [Bool.false_eq_true, iff_false]
      unfold buildJoinClubMessage
      simp only [Bool.false_eq_true, if_false]
      split_ifs <;> decide
    · simp [buildJoinClubMessage]
  · subst hr
    unfold buildJoinClubMessage
    simp only [Bool.false_eq_true, if_false]
    by_cases hA : (jsIncludes (normalizeDetail body) "already"
        && jsIncludes (normalizeDetail body) "member") = true
    · simp [hA]
    · rw [Bool.not_eq_true] at hA
      simp only [hA, Bool.false_eq_true, if_false, iff_false]
      split_ifs <;> decide
  · unfold buildJoinClubMessage
    simp only [Bool.false_eq_true, if_false, hr, hA]
    by_cases hP : jsIncludes (normalizeDetail body) "pending" = true
    · simp [hP]
    · rw [Bool.not_eq_true] at hP
      simp only [hP, Bool.false_eq_true, if_false, iff_false]
      decide
  · unfold buildJoinClubMessage
    simp [hr, hA, hP]

/-- Witness for C5 at a concrete response. -/
theorem buildJoinClubMessage_spec_witness :
    buildJoinClubMessage false (some ⟨none, some "Request is PENDING review", none⟩)
      = ⟨"Your join request is pending approval.", "info"⟩ :=
  ((buildJoinClubMessage_spec false
      (some ⟨none, some "Request is PENDING review", none⟩)).2.2.1 rfl (by decide)).mpr (by decide)

/-- Lowercasing preserves emptiness of a string. -/
theorem jsToLower_eq_empty_iff (s : String) : jsToLower s = "" ↔ s = "" := by
  cases s with
  | mk data =>
    cases data with
    | nil => exact ⟨fun _ => rfl, fun _ => rfl⟩
    | cons c cs =>
      constructor
      · intro h
        exact absurd (congrArg String.data h) (by simp [jsToLower])
      · intro h
        exact absurd (congrArg String.data h) (by simp)

/-- C9: `filterClubList` renders exactly the clubs whose name or description
contains the trimmed search string case-insensitively, preserving order, and
renders the full list when the trimmed search is empty. -/
theorem filterClubList_spec (clubs : List ClubInfo) (searchInput : String) :
    (jsTrim searchInput = "" → filterClubList clubs searchInput = clubs)
    ∧ List.Sublist (filterClubList clubs searchInput) clubs
    ∧ (jsTrim searchInput ≠ "" →
        ∀ c, c ∈ filterClubList clubs searchInput
          ↔ c ∈ clubs ∧ clubMatchesSearch (jsToLower (jsTrim searchInput)) c = true) := by
  refine ⟨fun h => ?_, ?_, fun h c => ?_⟩
  · simp only [filterClubList, h]
    rfl
  · simp only [filterClubList]
    split
    · exact List.Sublist.refl _
    · exact List.filter_sublist _
  · have hne : jsToLower (jsTrim searchInput) ≠ "" :=
      fun he => h ((jsToLower_eq_empty_iff _).mp he)
    simp only [filterClubList, if_neg hne]
    simp [List.mem_filter]

/-- Witness for C9 at a concrete club list and search string. -/
theorem filterClubList_spec_witness :
    (filterClubList [⟨1, "Chess Club", "Board games"⟩] "" = [⟨1, "Chess Club", "Board games"⟩])
    ∧ (⟨1, "Chess Club", "Board games"⟩ ∈ filterClubList [⟨1, "Chess Club", "Board games"⟩] " CHESS "
        ↔ ⟨1, "Chess Club", "Board games"⟩ ∈ ([⟨1, "Chess Club", "Board games"⟩] : List ClubInfo)
          ∧ clubMatchesSearch (jsToLower (jsTrim " CHESS ")) ⟨1, "Chess Club", "Board games"⟩ = true) :=
  ⟨(filterClubList_spec [⟨1, "Chess Club", "Board games"⟩] "").1 rfl,
   (filterClubList_spec [⟨1, "Chess Club", "Board games"⟩] " CHESS ").2.2 (by decide)
     ⟨1, "Chess Club", "Board games"⟩⟩

/-- C2 counterexample: it is NOT the case that every leader-gated capability
check grants leader capabilities only when role = leader AND the
leader-approved flag is true.  `canManageEvent` grants management to an
unapproved leader whose membership role is "leader", and never consults the
approval flag. -/
theorem leaderGate_counterexample :
    ¬ (∀ (role : String) (leaderApproved : Bool) (clubRoles : List (Nat × String))
          (clubId : Option Nat) (members : List ClubMember) (u : AuthUser),
        role ≠ "admin" →
          (canManageEvent role clubRoles clubId = true → role = "leader" ∧ leaderApproved = true)
          ∧ (leaderOnlyVisible role = true → role = "leader" ∧ leaderApproved = true)
          ∧ (u.role = role → u.is_approved = leaderApproved →
              canManageClubEvents (some u) members = true →
              role = "leader" ∧ leaderApproved = true)) := by
  intro h
  have h2 := (h "leader" false [(1, "leader")] (some 1) []
      ⟨1, "x@y.edu", "leader", false⟩ (by decide)).1 (by decide)
  exact absurd h2.2 (by decide)

/-- C2 amended: only the club-detail gates (`canManageClubEvents` and the
identical `shouldShowLeaderTools`) require role = leader AND leader-approved
for a non-admin; `canManageEvent` requires role = leader plus a "leader"
membership role in the club of the event without consulting the approval flag;
and the persona-variant leader-only UI visibility requires only that the
role is leader or admin. -/
theorem leaderGate_amended :
    (∀ (u : AuthUser) (members : List ClubMember), u.role ≠ "admin" →
        canManageClubEvents (some u) members = true →
        u.role = "leader" ∧ u.is_approved = true ∧ isClubLeader members (some u) = true)
    ∧ (∀ (user : Option AuthUser) (members : List ClubMember),
        shouldShowLeaderTools user members = canManageClubEvents user members)
    ∧ (∀ (role : String) (clubRoles : List (Nat × String)) (cid : Nat), role ≠ "admin" →
        (canManageEvent role clubRoles (some cid) = true
          ↔ role = "leader" ∧ cid ≠ 0 ∧ mapGet clubRoles cid = some "leader"))
    ∧ (∀ role : String, role ≠ "admin" →
        (leaderOnlyVisible role = true ↔ role = "leader")) := by
  refine ⟨fun u members hna h => ?_, fun user members => rfl,
    fun role clubRoles cid hna => ?_, fun role hna => ?_⟩
  · simp only [canManageClubEvents, Bool.or_eq_true, Bool.and_eq_true, beq_iff_eq] at h
    rcases h with h | ⟨⟨hrole, happ⟩, hlead⟩
    · exact absurd h hna
    · exact ⟨hrole, happ, hlead⟩
  · simp only [canManageEvent, if_neg hna]
    by_cases h0 : cid = 0
    · simp [h0]
    · simp [h0, Bool.and_eq_true, beq_iff_eq]
  · simp only [leaderOnlyVisible, Bool.not_and, Bool.or_eq_true, Bool.not_eq_true',
      bne_eq_false_iff_eq]
    constructor
    · rintro (h | h)
      · exact h
      · exact absurd h hna
    · intro h
      exact Or.inl h

/-- Witness for the amended C2 theorem at concrete inputs. -/
theorem leaderGate_amended_witness :
    (("leader" : String) = "leader" ∧ (true : Bool) = true
      ∧ isClubLeader [⟨"lead@x.edu", "leader", "approved"⟩]
          (some ⟨2, "lead@x.edu", "leader", true⟩) = true)
    ∧ (canManageEvent "leader" [(1, "leader")] (some 1) = true
        ↔ ("leader" : String) = "leader" ∧ (1 : Nat) ≠ 0
          ∧ mapGet [(1, "leader")] 1 = some "leader") :=
  ⟨leaderGate_amended.1 ⟨2, "lead@x.edu", "leader", true⟩
      [⟨"lead@x.edu", "leader", "approved"⟩] (by decide) (by decide),
   leaderGate_amended.2.2.1 "leader" [(1, "leader")] 1 (by decide)⟩

/-- C4 counterexample: `buildHeaders` does NOT attach the role of the caller to
the request for a signed-in user — no header value carries the role at all. -/
theorem buildHeaders_counterexample :
    ¬ (∀ (u : AuthUser) (json : Bool), u.id ≠ 0 → u.email ≠ "" →
        ∃ kv ∈ buildHeaders (some u) json, kv.2 = u.role) := by
  intro h
  obtain ⟨kv, hmem, hval⟩ :=
    h ⟨7, "amy@demo.edu", "admin", true⟩ true (by decide) (by decide)
  have he : buildHeaders (some ⟨7, "amy@demo.edu", "admin", true⟩) true
      = [("X-User-Id", "7"), ("X-User-Email", "amy@demo.edu"),
         ("Content-Type", "application/json")] := by decide
  rw [he] at hmem
  simp only [List.mem_cons, List.not_mem_nil, or_false] at hmem
  rcases hmem with h1 | h1 | h1 <;> (rw [h1] at hval; exact absurd hval (by decide))

/-- C4 amended: for a signed-in user (nonzero id, nonempty email) the headers
carry the identity of the caller (`X-User-Id` and `X-User-Email`), plus
`Content-Type` for JSON requests, and no role header is sent. -/
theorem buildHeaders_amended (u : AuthUser) (json : Bool)
    (hid : u.id ≠ 0) (hemail : u.email ≠ "") :
    buildHeaders (some u) json
      = [("X-User-Id", toString u.id), ("X-User-Email", u.email)]
          ++ (if json then [("Content-Type", "application/json")] else [])
    ∧ "X-User-Role" ∉ (buildHeaders (some u) json).map Prod.fst := by
  constructor
  · simp [buildHeaders, hid, hemail]
  · cases json <;> simp [buildHeaders, hid, hemail]

/-- Witness for the amended C4 theorem at a concrete signed-in user. -/
theorem buildHeaders_amended_witness :
    buildHeaders (some ⟨7, "amy@demo.edu", "student", true⟩) false
      = [("X-User-Id", toString (7 : Nat)), ("X-User-Email", "amy@demo.edu")]
          ++ (if false then [("Content-Type", "application/json")] else []) :=
  (buildHeaders_amended ⟨7, "amy@demo.edu", "student", true⟩ false
    (by decide) (by decide)).1

/-- C6: each admin client operation issues its HTTP request only for the
admin persona; every other role gets the error status with no request; and
the admin persona does reach the request. -/
theorem adminOps_guard (role : String) (flagId : Int) (h : role ≠ "admin") :
    loadFlags role = ⟨false, some "Admin role required."⟩
    ∧ resolveFlag role flagId = ⟨false, some "Admin role required."⟩
    ∧ loadPendingClubs role = ⟨false, some "Admin role required."⟩
    ∧ (∀ idOverride : Option Int,
        approveClub role idOverride = ⟨false, some "Admin role required."⟩)
    ∧ (loadFlags "admin").requestSent = true
    ∧ (resolveFlag "admin" flagId).requestSent = true
    ∧ (loadPendingClubs "admin").requestSent = true
    ∧ (approveClub "admin" (some 5)).requestSent = true := by
  refine ⟨?_, ?_, ?_, fun idO => ?_, rfl, rfl, rfl, rfl⟩ <;>
    simp [loadFlags, resolveFlag, loadPendingClubs, approveClub, h]

/-- Witness for C6 at the student persona. -/
theorem adminOps_guard_witness :
    loadFlags "student" = ⟨false, some "Admin role required."⟩
    ∧ approveClub "student" (some 5) = ⟨false, some "Admin role required."⟩ :=
  ⟨(adminOps_guard "student" 0 (by decide)).1,
   (adminOps_guard "student" 0 (by decide)).2.2.2.1 (some 5)⟩

/-- C7: `renderMyEvents` displays the registered events sorted by start time
ascending (a permutation of the stored list) and leaves the stored
`myEvents` array unchanged. -/
theorem renderMyEvents_spec (evs : List MyEvent) :
    List.Pairwise (fun a b => a.starts_at ≤ b.starts_at) (renderMyEvents evs).1
    ∧ List.Perm (renderMyEvents evs).1 evs
    ∧ (renderMyEvents evs).2 = evs := by
  refine ⟨?_, List.mergeSort_perm evs _, rfl⟩
  have htrans : ∀ a b c : MyEvent,
      decide (a.starts_at ≤ b.starts_at) = true →
      decide (b.starts_at ≤ c.starts_at) = true →
      decide (a.starts_at ≤ c.starts_at) = true := by
    intro a b c hab hbc
    simp only [decide_eq_true_eq] at *
    omega
  have htot : ∀ a b : MyEvent,
      (decide (a.starts_at ≤ b.starts_at) || decide (b.starts_at ≤ a.starts_at)) = true := by
    intro a b
    simp only [Bool.or_eq_true, decide_eq_true_eq]
    omega
  have h := List.sorted_mergeSort htrans htot evs
  exact h.imp (fun hab => by simpa using hab)

/-- C8 (evaluating the code at the failing input): `buildIsoString` maps
12 PM to 24-hour value 0 — the very same `Date.UTC` arguments as 12 AM —
instead of 12 (noon); other PM hours convert as expected. -/
theorem buildIsoString_noon_bug :
    buildIsoString "2025-03-01" "12" "30" "PM" = .iso ⟨2025, 2, 1, 0, 30⟩
    ∧ buildIsoString "2025-03-01" "12" "30" "AM" = .iso ⟨2025, 2, 1, 0, 30⟩
    ∧ buildIsoString "2025-03-01" "7" "05" "PM" = .iso ⟨2025, 2, 1, 19, 5⟩
    ∧ buildIsoString "" "7" "05" "PM" = .nullResult
    ∧ buildIsoString "2025-03-01" "0" "05" "PM" = .nullResult := by
  refine ⟨rfl, rfl, rfl, rfl, rfl⟩

/-! Helper lemmas for the createClub submission discipline. -/

/-- The in-flight counter always mirrors the `createClubSubmitting` flag. -/
theorem ccStep_inv (s : CCState) (e : CCEvent)
    (h : s.requestsInFlight = if s.createClubSubmitting then 1 else 0) :
    (ccStep s e).1.requestsInFlight
      = if (ccStep s e).1.createClubSubmitting then 1 else 0 := by
  cases e with
  | invoke name description =>
    by_cases hsub : s.createClubSubmitting
    · simpa [ccStep, hsub] using h
    · by_cases hempty : jsTrim name = "" ∨ jsTrim description = ""
      · simpa [ccStep, hsub, hempty] using h
      · simp only [ccStep, if_neg hsub, if_neg hempty, hsub] at h ⊢
        simp at h
        simp [h]
  | complete o =>
    simp only [ccStep]
    split at h <;> simp [h]

/-- The flag/in-flight invariant holds in every state `ccRun` reaches. -/
theorem ccRun_inv (events : List CCEvent) :
    (ccRun events).requestsInFlight
      = if (ccRun events).createClubSubmitting then 1 else 0 := by
  suffices h : ∀ (evs : List CCEvent) (s : CCState),
      s.requestsInFlight = (if s.createClubSubmitting then 1 else 0) →
      (evs.foldl (fun s e => (ccStep s e).1) s).requestsInFlight
        = if (evs.foldl (fun s e => (ccStep s e).1) s).createClubSubmitting then 1 else 0 by
    exact h events ccInit rfl
  intro evs
  induction evs with
  | nil => intro s hs; simpa using hs
  | cons e rest ih =>
    intro s hs
    exact ih _ (ccStep_inv s e hs)

/-- C10: `createClub` never has two requests in flight and never submits
invalid input: a set `createClubSubmitting` flag makes an invocation return
at once with no request, empty trimmed name or description issues no request
and leaves the state unchanged, completion of an attempt always clears the
flag (success, failure, or exception), and along every event sequence at
most one request is in flight. -/
theorem createClub_discipline :
    (∀ (s : CCState) (n d : String), s.createClubSubmitting = true →
        ccStep s (.invoke n d) = (s, false))
    ∧ (∀ (s : CCState) (n d : String), jsTrim n = "" ∨ jsTrim d = "" →
        ccStep s (.invoke n d) = (s, false))
    ∧ (∀ (s : CCState) (o : CCOutcome),
        (ccStep s (.complete o)).1.createClubSubmitting = false)
    ∧ (∀ events : List CCEvent, (ccRun events).requestsInFlight ≤ 1) := by
  refine ⟨fun s n d h => ?_, fun s n d h => ?_, fun s o => rfl, fun events => ?_⟩
  · simp [ccStep, h]
  · rcases h with h | h <;> simp [ccStep, h]
  · rw [ccRun_inv]
    split <;> omega

/-- Witness for C10 at concrete states and inputs. -/
theorem createClub_discipline_witness :
    ccStep ⟨true, 1⟩ (.invoke "Chess" "Fun") = (⟨true, 1⟩, false)
    ∧ ccStep ⟨false, 0⟩ (.invoke "   " "Fun") = (⟨false, 0⟩, false) :=
  ⟨createClub_discipline.1 ⟨true, 1⟩ "Chess" "Fun" rfl,
   createClub_discipline.2.1 ⟨false, 0⟩ "   " "Fun" (Or.inl rfl)⟩

/-! Helper lemmas for the Registration Ledger. -/

/-- A found event belongs to the store and has the looked-up id. -/
theorem findEvent_mem_id {st : Ledger} {eid : Nat} {ev : LedgerEvent}
    (h : findEvent st eid = some ev) : ev ∈ st.events ∧ ev.id = eid :=
  ⟨List.mem_of_find?_eq_some h, by simpa using List.find?_some h⟩

/-- Inserting a registration for `eid` bumps the count of that event by one. -/
theorem regCount_cons_same (st : Ledger) (u : String) (eid : Nat) :
    regCount { st with regs := (u, eid) :: st.regs } eid = regCount st eid + 1 := by
  simp [regCount, List.filter_cons]

/-- Inserting a registration for `eid` leaves the counts of other events alone. -/
theorem regCount_cons_other (st : Ledger) (u : String) {eid e2 : Nat} (h : eid ≠ e2) :
    regCount { st with regs := (u, eid) :: st.regs } e2 = regCount st e2 := by
  simp [regCount, List.filter_cons, h]

/-- Neither branch of `register` touches the event rows. -/
theorem register_events (st : Ledger) (u : String) (e : Nat) :
    (register st u e).1.events = st.events := by
  unfold register
  cases hfind : findEvent st e with
  | none => rfl
  | some ev =>
    by_cases hmem : (u, e) ∈ st.regs
    · simp [hmem]
    · cases hcap : ev.capacity with
      | none => simp [hmem, hcap]
      | some cap => by_cases hfull : cap ≤ regCount st e <;> simp [hmem, hcap, hfull]

/-- `unregister` does not touch the event rows. -/
theorem unregister_events (st : Ledger) (u : String) (e : Nat) :
    (unregister st u e).1.events = st.events := by
  unfold unregister
  by_cases hmem : (u, e) ∈ st.regs <;> simp [hmem]

/-- One atomic `register` step preserves the capacity invariant (given
distinct event ids). -/
theorem register_preserves_capInv (st : Ledger) (u : String) (e : Nat)
    (hids : (st.events.map (fun ev => ev.id)).Nodup) (hinv : capInv st) :
    capInv (register st u e).1 := by
  unfold register
  cases hfind : findEvent st e with
  | none => simpa using hinv
  | some ev =>
    obtain ⟨hmemev, hidev⟩ := findEvent_mem_id hfind
    by_cases hmem : (u, e) ∈ st.regs
    · simpa [hmem] using hinv
    · have hinsert : ∀ hcapev : ev.capacity = none ∨
          (∃ cap, ev.capacity = some cap ∧ regCount st e < cap),
          capInv { st with regs := (u, e) :: st.regs } := by
        intro hcapev ev2 hmem2 cap2 hcap2
        by_cases hid2 : ev2.id = e
        · have hev2 : ev2 = ev :=
            List.inj_on_of_nodup_map hids hmem2 hmemev (by rw [hid2, hidev])
          subst hev2
          rcases hcapev with hnone | ⟨cap, hsome, hlt⟩
          · rw [hnone] at hcap2; cases hcap2
          · rw [hsome] at hcap2
            cases hcap2
            rw [hid2, regCount_cons_same]
            omega
        · rw [show ev2.id = ev2.id from rfl, regCount_cons_other st u (fun he => hid2 he.symm)]
          exact hinv ev2 hmem2 cap2 hcap2
      cases hcap : ev.capacity with
      | none =>
        simp only [hmem, if_neg, hcap]
        simpa [hmem] using hinsert (Or.inl hcap)
      | some cap =>
        by_cases hfull : cap ≤ regCount st e
        · simpa [hmem, hcap, hfull] using hinv
        · simp only [hmem, hcap]
          simpa [hmem, hfull] using hinsert (Or.inr ⟨cap, hcap, by omega⟩)

/-- Removing a registration can only lower counts, so `unregister`
preserves the capacity invariant. -/
theorem unregister_preserves_capInv (st : Ledger) (u : String) (e : Nat)
    (hinv : capInv st) : capInv (unregister st u e).1 := by
  unfold unregister
  by_cases hmem : (u, e) ∈ st.regs
  · simp only [hmem, if_pos]
    intro ev2 hmem2 cap2 hcap2
    have hle : regCount { st with regs := st.regs.erase (u, e) } ev2.id
        ≤ regCount st ev2.id :=
      List.Sublist.length_le (List.Sublist.filter _ (List.erase_sublist _ _))
    exact le_trans hle (hinv ev2 hmem2 cap2 hcap2)
  · simpa [hmem] using hinv

/-- Distinct event ids plus the capacity invariant hold in every reachable
ledger state. -/
theorem reachable_inv {st : Ledger} (h : Reachable st) :
    (st.events.map (fun ev => ev.id)).Nodup ∧ capInv st := by
  induction h with
  | init events hids =>
    exact ⟨hids, fun ev hmem cap hcap => by simp [regCount]⟩
  | registerStep st u e hr ih =>
    exact ⟨by rw [register_events]; exact ih.1,
      register_preserves_capInv st u e ih.1 ih.2⟩
  | unregisterStep st u e hr ih =>
    exact ⟨by rw [unregister_events]; exact ih.1,
      unregister_preserves_capInv st u e ih.2⟩

/-- Splitting a `countOutcome` over a cons cell. -/
theorem countOutcome_cons (o : RegOutcome) (rs : List RegOutcome) (o2 : RegOutcome) :
    countOutcome (o :: rs) o2 = countOutcome rs o2 + (if o = o2 then 1 else 0) := by
  by_cases h : o = o2 <;> simp [countOutcome, List.filter_cons, h]

/-- Core counting argument: running one atomic `register` per user, with
distinct fresh users against one event of capacity `C`, fills the remaining
seats and rejects the rest with `capacityExceeded`. -/
theorem runRegisters_count (eid C : Nat) :
    ∀ (users : List String) (st : Ledger),
      findEvent st eid = some ⟨eid, some C⟩ →
      users.Nodup →
      (∀ u ∈ users, (u, eid) ∉ st.regs) →
      regCount st eid ≤ C →
      C - regCount st eid ≤ users.length →
      countOutcome (runRegisters st users eid).2 .ok = C - regCount st eid
      ∧ countOutcome (runRegisters st users eid).2 .capacityExceeded
          = users.length - (C - regCount st eid)
      ∧ regCount (runRegisters st users eid).1 eid = C := by
  intro users
  induction users with
  | nil =>
    intro st hev hnd hfresh hk hN
    simp only [List.length_nil] at hN
    simp only [runRegisters, countOutcome, List.filter_nil, List.length_nil]
    omega
  | cons u rest ih =>
    intro st hev hnd hfresh hk hN
    simp only [List.length_cons] at hN
    have hfreshu : (u, eid) ∉ st.regs := hfresh u (by simp)
    by_cases hfull : C ≤ regCount st eid
    · have hreg : register st u eid = (st, .capacityExceeded) := by
        simp [register, hev, hfreshu, hfull]
      obtain ⟨ih1, ih2, ih3⟩ := ih st hev hnd.of_cons
        (fun v hv => hfresh v (by simp [hv])) hk (by omega)
      simp only [runRegisters, hreg]
      refine ⟨?_, ?_, ih3⟩
      · rw [countOutcome_cons, ih1]
        simp
      · rw [countOutcome_cons, ih2, if_pos rfl]
        simp only [List.length_cons]
        omega
    · have hreg : register st u eid
          = ({ st with regs := (u, eid) :: st.regs }, .ok) := by
        simp [register, hev, hfreshu, hfull]
      have hev2 : findEvent { st with regs := (u, eid) :: st.regs } eid
          = some ⟨eid, some C⟩ := hev
      have hcount2 := regCount_cons_same st u eid
      have hne : u ∉ rest := (List.nodup_cons.mp hnd).1
      have hfresh2 : ∀ v ∈ rest, (v, eid) ∉ ((u, eid) :: st.regs : List (String × Nat)) := by
        intro v hv hmem
        rcases List.mem_cons.mp hmem with heq | hmem2
        · exact hne (by cases heq; exact hv)
        · exact hfresh v (by simp [hv]) hmem2
      obtain ⟨ih1, ih2, ih3⟩ := ih { st with regs := (u, eid) :: st.regs }
        hev2 hnd.of_cons hfresh2 (by omega) (by rw [hcount2]; omega)
      simp only [runRegisters, hreg]
      refine ⟨?_, ?_, ih3⟩
      · rw [countOutcome_cons, ih1, hcount2, if_pos rfl]
        omega
      · have hno : ¬ (RegOutcome.ok = RegOutcome.capacityExceeded) := by decide
        rw [countOutcome_cons, ih2, hcount2, if_neg hno]
        simp only [List.length_cons]
        omega

/-- C1: in every reachable ledger state the registration count of an event
never exceeds its capacity when capacity is set; and for any interleaving of
N atomic `register` calls by distinct fresh users against an event of
capacity C < N, exactly C registrations persist, the C calls that got seats
return ok, and the other N − C return the capacity Conflict. -/
theorem registrationLedger_spec :
    (∀ st : Ledger, Reachable st → capInv st)
    ∧ (∀ (eid C : Nat) (users : List String), users.Nodup → C < users.length →
        countOutcome (runRegisters ⟨[⟨eid, some C⟩], []⟩ users eid).2 .ok = C
        ∧ countOutcome (runRegisters ⟨[⟨eid, some C⟩], []⟩ users eid).2 .capacityExceeded
            = users.length - C
        ∧ regCount (runRegisters ⟨[⟨eid, some C⟩], []⟩ users eid).1 eid = C) := by
  constructor
  · intro st h
    exact (reachable_inv h).2
  · intro eid C users hnd hlen
    have h0 : findEvent ⟨[⟨eid, some C⟩], []⟩ eid = some ⟨eid, some C⟩ := by
      simp [findEvent]
    have hc0 : regCount ⟨[⟨eid, some C⟩], []⟩ eid = 0 := rfl
    obtain ⟨h1, h2, h3⟩ := runRegisters_count eid C users ⟨[⟨eid, some C⟩], []⟩
      h0 hnd (by simp) (by omega) (by omega)
    rw [hc0] at h1 h2
    exact ⟨by simpa using h1, by simpa using h2, h3⟩

/-- Witness for C1: a concrete reachable state satisfies the invariant, and
three racing users against capacity 2 yield two seats and one Conflict. -/
theorem registrationLedger_spec_witness :
    capInv (register ⟨[⟨1, some 2⟩], []⟩ "amy" 1).1
    ∧ countOutcome (runRegisters ⟨[⟨1, some 2⟩], []⟩ ["amy", "ben", "cory"] 1).2 .ok = 2
    ∧ countOutcome (runRegisters ⟨[⟨1, some 2⟩], []⟩ ["amy", "ben", "cory"] 1).2
        .capacityExceeded = 1
    ∧ regCount (runRegisters ⟨[⟨1, some 2⟩], []⟩ ["amy", "ben", "cory"] 1).1 1 = 2 :=
  ⟨registrationLedger_spec.1 _
      (Reachable.registerStep _ "amy" 1 (Reachable.init _ (by decide))),
   (registrationLedger_spec.2 1 2 ["amy", "ben", "cory"] (by decide) (by decide)).1,
   (registrationLedger_spec.2 1 2 ["amy", "ben", "cory"] (by decide) (by decide)).2.1,
   (registrationLedger_spec.2 1 2 ["amy", "ben", "cory"] (by decide) (by decide)).2.2⟩

end Campus
